import Mathlib

/-!
# Verification of the annet mesh/netbox core

Shallow embedding of the repository's device-graph builder
(`annet/adapters/netbox/common/storage_base.py`), mesh executor
(`annet/mesh/executor.py`) and peer conversion layer
(`annet/mesh/models_converter.py`), together with proofs of the
properties stated in the specification.

Python strings are modelled as `List Char` (so that Python's `in` on
strings is list-infix containment), Python `None`-able values as
`Option`, Python dicts as insertion-ordered association lists, and
exceptions as `Except`.  Code that the repository imports from modules
not present in the sources (the `merge` combinator of
`annet/mesh/basemodel.py`, the DTO records of `annet/mesh/models.py`,
the rule registry and the `NetboxQuery` wrapper) is modelled from the
specification's words; every such definition is marked
`Modelled from the spec:` in its doc comment.
-/

namespace Annet

/-- Python strings are modelled as lists of characters. -/
abbrev Str := List Char

/-! ## Ordered dictionaries

Python `dict` preserves insertion order; assignment to an existing key
keeps its position, assignment to a fresh key appends at the end.
`defaultdict(list)` with `.append` is `dictAppend`. -/

/-- `m[k] = v` on an insertion-ordered dict. -/
def dictSet [BEq κ] : List (κ × β) → κ → β → List (κ × β)
  | [], k, v => [(k, v)]
  | p :: rest, k, v =>
    if p.1 == k then (k, v) :: rest else p :: dictSet rest k v

/-- `m.get(k)` on an insertion-ordered dict. -/
def dictGet [BEq κ] (m : List (κ × β)) (k : κ) : Option β :=
  (m.find? (fun p => p.1 == k)).map Prod.snd

/-- `m[k] = f(m[k])` for a key already present: Python mutation of a
stored value through the dict. Entries with other keys are untouched. -/
def dictUpdate [BEq κ] (m : List (κ × β)) (k : κ) (f : β → β) : List (κ × β) :=
  m.map fun p => if p.1 == k then (p.1, f p.2) else p

/-- `m[k].append(v)` on a `defaultdict(list)`. -/
def dictAppend [BEq κ] : List (κ × List β) → κ → β → List (κ × List β)
  | [], k, v => [(k, [v])]
  | p :: rest, k, v =>
    if p.1 == k then (p.1, p.2 ++ [v]) :: rest else p :: dictAppend rest k v

/-! ## Python string operations -/

/-- Python `needle in haystack` on strings: substring containment. -/
def substrB (needle hay : Str) : Bool :=
  hay.tails.any fun t => needle.isPrefixOf t

/-- Python `s.strip()`: drop leading and trailing whitespace. -/
def stripChars (s : Str) : Str :=
  ((s.dropWhile Char.isWhitespace).reverse.dropWhile Char.isWhitespace).reverse

/-! ## Peer conversion layer: `annet/mesh/models_converter.py`

`InterfaceChanges.__post_init__` raises `ValueError` on the field
combinations it rejects; construction is therefore modelled as a
function into `Except String InterfaceChanges`. -/

/-- The `InterfaceChanges` dataclass of `models_converter.py`. -/
structure InterfaceChanges where
  addr : Str
  lag : Option Int := none
  lag_links_min : Option Int := none
  svi : Option Int := none
  subif : Option Int := none
  vrf : Option Str := none
deriving DecidableEq

/-- Constructing an `InterfaceChanges`: the dataclass `__init__` followed
by `__post_init__`, which checks `lag`/`svi` and then `svi`/`subif` and
raises `ValueError` when a checked pair is simultaneously set. -/
def mkInterfaceChanges (addr : Str) (lag lag_links_min svi subif : Option Int)
    (vrf : Option Str) : Except String InterfaceChanges :=
  if lag.isSome && svi.isSome then
    .error "Cannot use LAG and SVI together"
  else if svi.isSome && subif.isSome then
    .error "Cannot use Subif and SVI together"
  else
    .ok { addr := addr, lag := lag, lag_links_min := lag_links_min,
          svi := svi, subif := subif, vrf := vrf }

/-! ## The Merge Operator

Modelled from the spec: `merge` lives in `annet/mesh/basemodel.py`,
which is not among the repository's source files; §4.2 of the spec
specifies it as a structural combinator over optional-field records in
which "each field of the result equals the first non-default
(explicitly set) value found scanning later arguments first, falling
back toward earlier arguments", while fields declared accumulating
(address-family sets, policy lists) are concatenated. -/

/-- Modelled from the spec: merging one optional scalar field — the
later (right) argument wins when set, otherwise the earlier survives. -/
def mergeOpt (a b : Option α) : Option α :=
  match b with
  | some v => some v
  | none => a

/-- Modelled from the spec: a peer group reference carried by a peer
DTO (name plus remote AS number), as read by `_to_bgp_peer`. -/
structure GroupDTO where
  name : Str := []
  remoteAs : Nat := 0
deriving DecidableEq

/-- Modelled from the spec: `PeerDTO` of `annet/mesh/models.py` — a
mutable accumulator record with optional scalar fields (address, ASN,
VRF, description, update-source, group, policies) and an accumulating
address-family set (§3). -/
structure PeerDTO where
  addr : Option Str := none
  asnum : Option Nat := none
  vrf : Option Str := none
  description : Option Str := none
  updateSource : Option Str := none
  group : Option GroupDTO := none
  importPolicy : Option Str := none
  exportPolicy : Option Str := none
  families : List Str := []
deriving DecidableEq

/-- Modelled from the spec: the two-argument Merge Operator on
`PeerDTO`: scalar fields are right-biased via `mergeOpt`, the
accumulating `families` field is concatenated (§4.2). -/
def merge2 (a b : PeerDTO) : PeerDTO where
  addr := mergeOpt a.addr b.addr
  asnum := mergeOpt a.asnum b.asnum
  vrf := mergeOpt a.vrf b.vrf
  description := mergeOpt a.description b.description
  updateSource := mergeOpt a.updateSource b.updateSource
  group := mergeOpt a.group b.group
  importPolicy := mergeOpt a.importPolicy b.importPolicy
  exportPolicy := mergeOpt a.exportPolicy b.exportPolicy
  families := a.families ++ b.families

/-- Modelled from the spec: the N-way Merge Operator
`merge(a, b, c, ...)`, folding the pairwise merge left to right. -/
def mergeMany (a : PeerDTO) (rest : List PeerDTO) : PeerDTO :=
  rest.foldl merge2 a

/-- Modelled from the spec: `GlobalOptionsDTO` of `annet/mesh/models.py`
— the global-options accumulator record (§3), with an optional AS
number and VRF and an accumulating address-family set. -/
structure GlobalOptionsDTO where
  asnum : Option Nat := none
  vrf : Option Str := none
  families : List Str := []
deriving DecidableEq

/-- Modelled from the spec: a fresh `GlobalOptionsDTO()` — every
optional field unset, the accumulating field empty. -/
def GlobalOptionsDTO.empty : GlobalOptionsDTO := {}

/-- Modelled from the spec: "a documented default GlobalOptionsDTO"
(§4.3) seeding the global pass; its field values are not observed by
any property proved here. -/
def GlobalOptionsDTO.default : GlobalOptionsDTO := {}

/-- Modelled from the spec: the Merge Operator at `GlobalOptionsDTO`. -/
def mergeG (a b : GlobalOptionsDTO) : GlobalOptionsDTO where
  asnum := mergeOpt a.asnum b.asnum
  vrf := mergeOpt a.vrf b.vrf
  families := a.families ++ b.families

/-! ## Device Graph Builder: `annet/adapters/netbox/common/storage_base.py`

The CMDB (the `annetbox` client behind `self.netbox`) is an external
collaborator; its query methods are passed in as opaque functions.
API devices carry the fields this core reads: `id` and `name`. -/

/-- A device as returned by the CMDB (`api_models.Device`), restricted
to the fields the graph builder reads. -/
structure ApiDevice where
  id : Nat
  name : Str
deriving DecidableEq

/-- Modelled from the spec: the `NetboxQuery` wrapper
(`annet/adapters/netbox/common/query.py` is not among the source
files).  It wraps the caller's raw list of name/glob tokens; `globs`
exposes that list. -/
structure NetboxQuery where
  query : List Str
deriving DecidableEq

/-- Modelled from the spec: `NetboxQuery.globs` — the query's glob
tokens, i.e. the wrapped raw list. -/
def NetboxQuery.globs (q : NetboxQuery) : List Str := q.query

/-- The `add_dot` closure of `_hostname_dot_hack`: a dot-free string
token gets a trailing dot appended, anything else is untouched. -/
def addDot (s : Str) : Str :=
  if '.' ∈ s then s else s ++ ['.']

/-- `BaseNetboxStorage._hostname_dot_hack`: replaces, in place, every
dot-free token of the query's underlying raw list by the token with a
trailing dot, and wraps the same (now mutated) list in the returned
query. -/
def hostname_dot_hack (q : NetboxQuery) : NetboxQuery :=
  ⟨q.query.map addDot⟩

/-- `BaseNetboxStorage._match_query`: the client-side containment
re-check — some stripped glob of the query is a substring of the
device's name. -/
def matchQuery (q : NetboxQuery) (d : ApiDevice) : Bool :=
  q.globs.any fun subquery => substrB (stripChars subquery) d.name

/-- What `_load_devices` leaves behind: the devices it returns and the
query value the caller's `NetboxQuery` holds after the call (the dot
hack mutates the caller's glob list in place; state passing makes that
frame effect explicit). -/
structure LoadDevicesResult where
  devices : List ApiDevice
  queryAfter : NetboxQuery
deriving DecidableEq

/-- `BaseNetboxStorage._load_devices`.  `serverExact` stands for
`netbox.dcim_all_devices(name__ie=...)` and `serverIc` for
`netbox.dcim_all_devices(name__ic=...)`; both are opaque CMDB
collaborators receiving the glob list.  An empty query returns no
devices; exact mode passes the globs through; substring mode first
applies the hostname dot hack, then filters the server's superset
answer with the client-side re-check. -/
def load_devices (serverExact serverIc : List Str → List ApiDevice)
    (exactHostFilter : Bool) (q : NetboxQuery) : LoadDevicesResult :=
  if q.globs.isEmpty then ⟨[], q⟩
  else if exactHostFilter then ⟨serverExact q.globs, q⟩
  else
    let q2 := hostname_dot_hack q
    ⟨(serverIc q2.globs).filter (matchQuery q2), q2⟩

/-- `endpoint.device` as embedded in a connected endpoint
(`api_models` entity reference: id and name). -/
structure EntityRef where
  id : Nat
  name : Str
deriving DecidableEq

/-- One entry of an interface's `connected_endpoints`: the remote
interface's id and name plus a reference to the remote device. -/
structure EndpointM where
  id : Nat
  device : EntityRef
  name : Str
deriving DecidableEq

/-- An interface as handled by the builder: id, owning device
reference, name, and an optional list of connected endpoints (the
Python field may be `None`). -/
structure IfaceM where
  id : Nat
  device : EntityRef
  name : Str
  connectedEndpoints : Option (List EndpointM)
deriving DecidableEq

/-- Python's `interface.connected_endpoints or []`. -/
def IfaceM.endpoints (i : IfaceM) : List EndpointM :=
  i.connectedEndpoints.getD []

/-- A built device (`device_model` after `extend_device`): id, name
(which `extend_device` copies into both `hostname` and `fqdn`), the
identity of the storage that built it, its interfaces, and its
neighbour list — `none` models the Python field holding `None`. -/
inductive NDev : Type where
  | mk : Nat → Str → Nat → List IfaceM → Option (List NDev) → NDev

def NDev.id : NDev → Nat
  | .mk i _ _ _ _ => i

def NDev.name : NDev → Str
  | .mk _ n _ _ _ => n

def NDev.storage : NDev → Nat
  | .mk _ _ s _ _ => s

def NDev.interfaces : NDev → List IfaceM
  | .mk _ _ _ ifs _ => ifs

def NDev.neighbours : NDev → Option (List NDev)
  | .mk _ _ _ _ nbs => nbs

/-- The neighbour entries actually attached to a device (an absent
(`None`) neighbour field holds no entries). -/
def NDev.nbrList (d : NDev) : List NDev :=
  d.neighbours.getD []

/-- `device.interfaces.append(iface)`. -/
def NDev.appendIface (i : IfaceM) : NDev → NDev
  | .mk id n s ifs nbs => .mk id n s (ifs ++ [i]) nbs

/-- `device.neighbours.append(nb)` (top-level devices are created with
an empty neighbour list, so the field is present when this runs). -/
def NDev.appendNbr (x : NDev) : NDev → NDev
  | .mk id n s ifs nbs => .mk id n s ifs (some (nbs.getD [] ++ [x]))

/-- `extend_device(device, interfaces=[], neighbours=[], storage=self)`
as `make_devices` runs it on each queried device. -/
def extendTop (tag : Nat) (d : ApiDevice) : NDev :=
  .mk d.id d.name tag [] (some [])

/-- `BaseNetboxStorage._load_neighbours`: collect every connected
endpoint of the given interfaces, load the referenced remote
interfaces (only those, for speed) and group them by owning device id
(a `defaultdict(list)`), then load the referenced devices and extend
each with its connected interfaces and `neighbours=None` ("do not load
recursively"). -/
def load_neighbours (tag : Nat) (loadIfById : List Nat → List IfaceM)
    (loadDevById : List Nat → List ApiDevice)
    (interfaces : List IfaceM) : List NDev :=
  let endpoints := interfaces.flatMap IfaceM.endpoints
  let remoteIfaceIds := endpoints.map EndpointM.id
  let neighbourIds := endpoints.map fun e => e.device.id
  let ifaceDict :=
    (loadIfById remoteIfaceIds).foldl (fun m i => dictAppend m i.device.id i) []
  (loadDevById neighbourIds).map fun nd =>
    .mk nd.id nd.name tag ((dictGet ifaceDict nd.id).getD []) none

/-- The mutable state of `make_devices`' interface loop: the
`device_ids` dict of devices under construction and the
`neighbours_seen` sets (a `defaultdict(set)` keyed by device id). -/
structure BuildSt where
  dict : List (Nat × NDev)
  seen : Nat → List Nat

/-- The body of `for e in interface.connected_endpoints or []`: look
the endpoint's device up in the `neighbours` dict and attach it to the
owning device unless its id was already seen there.  (A device id
missing from the dict would raise `KeyError` in the source; the model
leaves the state unchanged, so every produced device corresponds to a
non-raising run.) -/
def endpointStep (nbrs : List (Nat × NDev)) (devId : Nat)
    (st : BuildSt) (e : EndpointM) : BuildSt :=
  match dictGet nbrs e.device.id with
  | none => st
  | some nb =>
    if nb.id ∈ st.seen devId then st
    else
      { dict := dictUpdate st.dict devId (NDev.appendNbr nb)
        seen := fun k => if k = devId then nb.id :: st.seen k else st.seen k }

/-- The body of `for interface in interfaces`: append the interface to
its owning device, then process its connected endpoints. -/
def interfaceStep (nbrs : List (Nat × NDev)) (st : BuildSt) (i : IfaceM) : BuildSt :=
  let st1 : BuildSt :=
    { st with dict := dictUpdate st.dict i.device.id (NDev.appendIface i) }
  i.endpoints.foldl (endpointStep nbrs i.device.id) st1

/-- Proof device: the loop invariant of `make_devices`' interface
walk — every device under construction has pairwise-distinct neighbour
ids, each recorded in its `neighbours_seen` set, and every attached
neighbour satisfies `P` (instantiated with membership in the loaded
neighbour pool). -/
def BuildInv (P : NDev → Prop) (st : BuildSt) : Prop :=
  ∀ p ∈ st.dict,
    (p.2.nbrList.map NDev.id).Nodup
    ∧ ∀ x ∈ p.2.nbrList, x.id ∈ st.seen p.1 ∧ P x

/-- `BaseNetboxStorage.make_devices` (`buildDevices` of the spec):
resolve the query, extend each device with empty interfaces and
neighbours, load the interfaces of all resolved devices, load the
neighbour devices, then walk the interfaces attaching each to its
owner and de-duplicating neighbour entries per device via
`neighbours_seen`; finally return the devices in dict order. -/
def make_devices (tag : Nat) (serverExact serverIc : List Str → List ApiDevice)
    (exactHostFilter : Bool) (loadIfs : List Nat → List IfaceM)
    (loadIfById : List Nat → List IfaceM)
    (loadDevById : List Nat → List ApiDevice) (q : NetboxQuery) : List NDev :=
  let devs := (load_devices serverExact serverIc exactHostFilter q).devices
  let deviceIds := devs.foldl (fun m d => dictSet m d.id (extendTop tag d)) []
  if deviceIds.isEmpty then []
  else
    let interfaces := loadIfs (deviceIds.map Prod.fst)
    let nbrs :=
      (load_neighbours tag loadIfById loadDevById interfaces).foldl
        (fun m x => dictSet m x.id x) []
    let final := interfaces.foldl (interfaceStep nbrs) ⟨deviceIds, fun _ => []⟩
    final.dict.map Prod.snd

/-- `BaseNetboxStorage.search_connections`: after checking that both
devices belong to this storage (`self` is modelled by its tag), walk
the device's interfaces and, for each connected endpoint pointing at
the neighbour, pair the local interface with the first neighbour
interface of the endpoint's name (the loop `break`s at the first name
match; an endpoint with no name match contributes nothing). -/
def search_connections (tag : Nat) (device neighbor : NDev) :
    Except String (List (IfaceM × IfaceM)) :=
  if device.storage ≠ tag then .error "device does not belong to this storage"
  else if neighbor.storage ≠ tag then .error "neighbor does not belong to this storage"
  else .ok <|
    device.interfaces.flatMap fun localPort =>
      localPort.endpoints.filterMap fun endpoint =>
        if endpoint.device.id = neighbor.id then
          match neighbor.interfaces.find? (fun r => r.name == endpoint.name) with
          | some remotePort => some (localPort, remotePort)
          | none => none
        else none

/-! ## Mesh Executor: `annet/mesh/executor.py`

The rule registry (`annet/mesh/registry.py`, not among the source
files) is a black-box collaborator exposing the three lookups; handler
callables mutate the peer-context views and the session object, which
the model renders as the handler returning the contributions those
objects hold afterwards.  Python `KeyError` (a direct rule naming a
non-neighbour) and `IndexError` (`make_devices(...)[0]` on an empty
result) are modelled as `Except.error`. -/

/-- A device as the executor sees a far end: its fully-qualified name
and hostname (`annet.storage.Device` restricted to what the executor
reads of it). -/
structure PeerDevice where
  fqdn : Str
  hostname : Str := []
deriving DecidableEq

/-- The device the executor runs for: its own identity plus its
already-resolved physical neighbours. -/
structure ExecDevice where
  self : PeerDevice
  neighbours : List PeerDevice
deriving DecidableEq

/-- Modelled from the spec: what a direct/indirect rule handler leaves
in its two peer-context views and the per-iteration session object —
three partial `PeerDTO` contributions, positionally for the left view,
the right view and the session. -/
structure HandlerOut where
  leftOut : PeerDTO := {}
  rightOut : PeerDTO := {}
  sessionOut : PeerDTO := {}

/-- Modelled from the spec: a global-options rule as the registry
returns it — its handler populates a fresh global-options view for the
device. -/
structure GlobalRule where
  handler : PeerDevice → GlobalOptionsDTO

/-- Modelled from the spec: a direct-peering rule — matched name pair,
the `direct_order` flag selecting which side of the signature is the
device, and the handler. -/
structure DirectRule where
  nameLeft : Str
  nameRight : Str
  directOrder : Bool
  handler : PeerDevice → PeerDevice → HandlerOut

/-- Modelled from the spec: an indirect-peering rule (same shape as a
direct rule; the far end is fetched from storage, not from the
neighbour list). -/
structure IndirectRule where
  nameLeft : Str
  nameRight : Str
  directOrder : Bool
  handler : PeerDevice → PeerDevice → HandlerOut

/-- Modelled from the spec: the rule registry collaborator with its
three lookups (`lookup_global`, `lookup_direct`, `lookup_indirect`);
rule order is registry-defined. -/
structure Registry where
  lookupGlobal : Str → List GlobalRule
  lookupDirect : Str → List Str → List DirectRule
  lookupIndirect : Str → List Str → List IndirectRule

/-- The storage collaborator as the executor uses it:
`resolve_all_fdnds()` and `make_devices(name)` (the latter returning
the built devices for a single-name query). -/
structure StorageModel where
  allFqdns : List Str
  resolve : Str → List PeerDevice

/-- The errors a mesh execution can raise: `KeyError` on a direct rule
naming a non-neighbour, `IndexError` on `make_devices(...)[0]` for an
indirect target resolving to no device. -/
inductive MeshErr where
  | missingNeighbor : Str → MeshErr
  | unresolvedIndirect : Str → MeshErr
deriving DecidableEq

/-- `MeshExecutor._execute_globals`: fold the matching global rules'
outputs over a fresh `GlobalOptionsDTO()` in match order, then seed
with the default via a final `merge(GlobalOptionsDTO.default(),
global_opts)`. -/
def executeGlobals (reg : Registry) (device : PeerDevice) : GlobalOptionsDTO :=
  mergeG GlobalOptionsDTO.default
    ((reg.lookupGlobal device.fqdn).foldl
      (fun globalOpts rule => mergeG globalOpts (rule.handler device))
      GlobalOptionsDTO.empty)

/-- The `neighbors = {n.fqdn: n for n in device.neighbours}` dict of
`_execute_direct`. -/
def neighborsDict (device : ExecDevice) : List (Str × PeerDevice) :=
  device.neighbours.foldl (fun m n => dictSet m n.fqdn n) []

/-- One iteration of `_execute_direct`'s rule loop: look the far-end
neighbour up by the rule's name on the neighbour side (`KeyError` when
absent), run the handler with the views ordered by `direct_order`, and
merge the neighbour view's and the session's contributions into the
accumulator entry keyed by the far end's fqdn. -/
def directStep (neighbors : List (Str × PeerDevice)) (device : PeerDevice)
    (acc : List (Str × PeerDTO)) (rule : DirectRule) :
    Except MeshErr (List (Str × PeerDTO)) :=
  let farName := if rule.directOrder then rule.nameRight else rule.nameLeft
  match dictGet neighbors farName with
  | none => .error (.missingNeighbor farName)
  | some nb =>
    let out :=
      if rule.directOrder then rule.handler device nb else rule.handler nb device
    let contrib := if rule.directOrder then out.rightOut else out.leftOut
    let prev := (dictGet acc nb.fqdn).getD {}
    .ok (dictSet acc nb.fqdn (mergeMany prev [contrib, out.sessionOut]))

/-- `MeshExecutor._execute_direct`: run the matching direct rules in
registry order, keying results by the far end's fqdn, and return the
accumulated `PeerDTO`s in key insertion order. -/
def executeDirect (reg : Registry) (device : ExecDevice) :
    Except MeshErr (List PeerDTO) :=
  let neighbors := neighborsDict device
  ((reg.lookupDirect device.self.fqdn (neighbors.map Prod.fst)).foldlM
      (directStep neighbors device.self) []).map (List.map Prod.snd)

/-- One iteration of `_execute_indirect`'s rule loop: fetch the far
end by name from storage — `make_devices(name)[0]`, an `IndexError`
when the result is empty — run the handler, and merge the connected
view's and the session's contributions into the accumulator entry
keyed by the far end's fqdn. -/
def indirectStep (storage : StorageModel) (device : PeerDevice)
    (acc : List (Str × PeerDTO)) (rule : IndirectRule) :
    Except MeshErr (List (Str × PeerDTO)) :=
  let farName := if rule.directOrder then rule.nameRight else rule.nameLeft
  match storage.resolve farName with
  | [] => .error (.unresolvedIndirect farName)
  | connected :: _ =>
    let out :=
      if rule.directOrder then rule.handler device connected
      else rule.handler connected device
    let contrib := if rule.directOrder then out.rightOut else out.leftOut
    let prev := (dictGet acc connected.fqdn).getD {}
    .ok (dictSet acc connected.fqdn (mergeMany prev [contrib, out.sessionOut]))

/-- `MeshExecutor._execute_indirect`: run the matching indirect rules
in registry order over the whole fleet's fqdns, keying results by the
far end's fqdn. -/
def executeIndirect (reg : Registry) (storage : StorageModel)
    (device : PeerDevice) (allFqdns : List Str) :
    Except MeshErr (List PeerDTO) :=
  ((reg.lookupIndirect device.fqdn allFqdns).foldlM
      (indirectStep storage device) []).map (List.map Prod.snd)

/-- A BGP peer-group record as `_to_bgp_peer` builds it from the DTO's
group (name and remote AS; the remaining fields are constants). -/
structure BgpGroup where
  name : Str
  remoteAs : Nat
deriving DecidableEq

/-- A BGP-layer peer record, restricted to the fields `_to_bgp_peer`
carries over from the DTO (the rest are filled with constants). -/
structure BgpPeer where
  addr : Option Str
  group : Option BgpGroup
deriving DecidableEq

/-- `MeshExecutor._to_bgp_peer`: project the merged `PeerDTO` onto the
BGP-layer peer record. -/
def toBgpPeer (peer : PeerDTO) : BgpPeer where
  addr := peer.addr
  group := peer.group.map fun g => ⟨g.name, g.remoteAs⟩

/-- `MeshExecutionResult`. -/
structure MeshExecutionResult where
  globalOptions : GlobalOptionsDTO
  peers : List BgpPeer
deriving DecidableEq

/-- `MeshExecutor.execute_for`: resolve the fleet's fqdns, run the
direct pass, append its peers, run the indirect pass, append its
peers after them, and return them with the merged global options. -/
def executeFor (reg : Registry) (storage : StorageModel) (device : ExecDevice) :
    Except MeshErr MeshExecutionResult :=
  let allFqdns := storage.allFqdns
  match executeDirect reg device with
  | .error e => .error e
  | .ok directs =>
    match executeIndirect reg storage device.self allFqdns with
    | .error e => .error e
    | .ok indirects =>
      .ok { globalOptions := executeGlobals reg device.self
            peers := directs.map toBgpPeer ++ indirects.map toBgpPeer }

/-! ## Concrete fixtures

The spec's §8 scenario: `r1.example.com` has two physical links to
`r2.example.com`, local interfaces `eth0`/`eth1` paired with remote
interfaces `eth2`/`eth3`.  The CMDB collaborator functions below
return exactly this topology. -/

def r1name : Str := "r1.example.com".toList

def r2name : Str := "r2.example.com".toList

def eth0 : IfaceM := ⟨10, ⟨1, r1name⟩, "eth0".toList, some [⟨20, ⟨2, r2name⟩, "eth2".toList⟩]⟩

def eth1 : IfaceM := ⟨11, ⟨1, r1name⟩, "eth1".toList, some [⟨21, ⟨2, r2name⟩, "eth3".toList⟩]⟩

def eth2 : IfaceM := ⟨20, ⟨2, r2name⟩, "eth2".toList, some [⟨10, ⟨1, r1name⟩, "eth0".toList⟩]⟩

def eth3 : IfaceM := ⟨21, ⟨2, r2name⟩, "eth3".toList, some [⟨11, ⟨1, r1name⟩, "eth1".toList⟩]⟩

/-- CMDB exact-name query collaborator for the scenario (unused in
substring mode). -/
def scExact : List Str → List ApiDevice := fun _ => []

/-- CMDB contains-query collaborator: the fleet holds `r1.example.com`. -/
def scIc : List Str → List ApiDevice := fun _ => [⟨1, r1name⟩]

/-- CMDB interfaces-by-device collaborator. -/
def scIfs : List Nat → List IfaceM := fun _ => [eth0, eth1]

/-- CMDB interfaces-by-id collaborator (the remote ends). -/
def scIfById : List Nat → List IfaceM := fun _ => [eth2, eth3]

/-- CMDB devices-by-id collaborator (the neighbour device). -/
def scDevById : List Nat → List ApiDevice := fun _ => [⟨2, r2name⟩]

/-- `buildDevices(["r1"])` over the scenario topology. -/
def scBuilt : List NDev :=
  make_devices 0 scExact scIc false scIfs scIfById scDevById ⟨["r1".toList]⟩

/-- The built `r2.example.com` neighbour: both connected interfaces
attached, neighbours not loaded (`None`). -/
def scR2 : NDev := .mk 2 r2name 0 [eth2, eth3] none

/-- The built `r1.example.com`: both interfaces attached, the single
de-duplicated neighbour entry `r2`. -/
def scR1 : NDev := .mk 1 r1name 0 [eth0, eth1] (some [scR2])

/-! Executor fixtures: a device `d` with the physical neighbour `x`, a
direct rule and an indirect rule both targeting fqdn `x`, and an
indirect rule targeting the unresolvable name `y`. -/

def cDevX : PeerDevice := ⟨"x".toList, []⟩

def cDevD : ExecDevice := ⟨⟨"d".toList, []⟩, [cDevX]⟩

/-- A direct rule on (`d`, `x`) whose handler sets the neighbour
view's address to `10.0.0.1`. -/
def cDirectRule : DirectRule where
  nameLeft := "d".toList
  nameRight := "x".toList
  directOrder := true
  handler := fun _ _ => { rightOut := { addr := some "10.0.0.1".toList } }

/-- An indirect rule on (`d`, `x`) whose handler sets the connected
view's address to `10.0.0.2`. -/
def cIndirectRule : IndirectRule where
  nameLeft := "d".toList
  nameRight := "x".toList
  directOrder := true
  handler := fun _ _ => { rightOut := { addr := some "10.0.0.2".toList } }

/-- An indirect rule whose far end `y` no storage below resolves. -/
def cIndirectRuleY : IndirectRule where
  nameLeft := "d".toList
  nameRight := "y".toList
  directOrder := true
  handler := fun _ _ => {}

/-- Registry returning the direct and the indirect rule above. -/
def cReg : Registry where
  lookupGlobal := fun _ => []
  lookupDirect := fun _ _ => [cDirectRule]
  lookupIndirect := fun _ _ => [cIndirectRule]

/-- Registry returning only the unresolvable indirect rule. -/
def cRegY : Registry where
  lookupGlobal := fun _ => []
  lookupDirect := fun _ _ => []
  lookupIndirect := fun _ _ => [cIndirectRuleY]

/-- Storage resolving `x` (and only `x`). -/
def cStor : StorageModel where
  allFqdns := ["d".toList, "x".toList]
  resolve := fun n => if n == "x".toList then [cDevX] else []

/-! ## Lemmas about the Merge Operator -/

theorem mergeOpt_assoc (a b c : Option α) :
    mergeOpt (mergeOpt a b) c = mergeOpt a (mergeOpt b c) := by
  cases c <;> rfl

theorem mergeOpt_none (a : Option α) : mergeOpt a none = a := rfl

theorem mergeOpt_some (a : Option α) (v : α) : mergeOpt a (some v) = some v := rfl

theorem merge2_assoc (a b c : PeerDTO) :
    merge2 (merge2 a b) c = merge2 a (merge2 b c) := by
  cases a; cases b; cases c
  simp [merge2, mergeOpt_assoc, List.append_assoc]

theorem mergeG_asnum (a b : GlobalOptionsDTO) :
    (mergeG a b).asnum = mergeOpt a.asnum b.asnum := rfl

/-- C4: the Merge Operator is pure (it is a function of its arguments
returning a fresh record — the model is purely functional, mirroring
the spec's contract that inputs are never mutated), right-biased on
every scalar field (a field set only in the earlier argument survives;
a field set in the later argument is taken from it), and associative;
the three-way merge `merge(a, b, c)` equals the iterated pairwise
merges in either association. -/
theorem merge_assoc_right_biased (a b c : PeerDTO) :
    merge2 (merge2 a b) c = merge2 a (merge2 b c)
    ∧ mergeMany a [b, c] = merge2 (merge2 a b) c
    ∧ mergeMany a [b, c] = merge2 a (merge2 b c)
    ∧ (b.addr = none → (merge2 a b).addr = a.addr)
    ∧ (∀ v, b.addr = some v → (merge2 a b).addr = some v)
    ∧ (b.asnum = none → (merge2 a b).asnum = a.asnum)
    ∧ (∀ v, b.asnum = some v → (merge2 a b).asnum = some v)
    ∧ (b.vrf = none → (merge2 a b).vrf = a.vrf)
    ∧ (∀ v, b.vrf = some v → (merge2 a b).vrf = some v)
    ∧ (b.description = none → (merge2 a b).description = a.description)
    ∧ (∀ v, b.description = some v → (merge2 a b).description = some v)
    ∧ (b.updateSource = none → (merge2 a b).updateSource = a.updateSource)
    ∧ (∀ v, b.updateSource = some v → (merge2 a b).updateSource = some v)
    ∧ (b.group = none → (merge2 a b).group = a.group)
    ∧ (∀ v, b.group = some v → (merge2 a b).group = some v)
    ∧ (b.importPolicy = none → (merge2 a b).importPolicy = a.importPolicy)
    ∧ (∀ v, b.importPolicy = some v → (merge2 a b).importPolicy = some v)
    ∧ (b.exportPolicy = none → (merge2 a b).exportPolicy = a.exportPolicy)
    ∧ (∀ v, b.exportPolicy = some v → (merge2 a b).exportPolicy = some v)
    ∧ (merge2 a b).families = a.families ++ b.families := by
  refine ⟨merge2_assoc a b c, rfl, (merge2_assoc a b c).symm ▸ rfl, ?_⟩
  constructor
  · intro h; simp [merge2, h, mergeOpt]
  constructor
  · intro v h; simp [merge2, h, mergeOpt]
  constructor
  · intro h; simp [merge2, h, mergeOpt]
  constructor
  · intro v h; simp [merge2, h, mergeOpt]
  constructor
  · intro h; simp [merge2, h, mergeOpt]
  constructor
  · intro v h; simp [merge2, h, mergeOpt]
  constructor
  · intro h; simp [merge2, h, mergeOpt]
  constructor
  · intro v h; simp [merge2, h, mergeOpt]
  constructor
  · intro h; simp [merge2, h, mergeOpt]
  constructor
  · intro v h; simp [merge2, h, mergeOpt]
  constructor
  · intro h; simp [merge2, h, mergeOpt]
  constructor
  · intro v h; simp [merge2, h, mergeOpt]
  constructor
  · intro h; simp [merge2, h, mergeOpt]
  constructor
  · intro v h; simp [merge2, h, mergeOpt]
  constructor
  · intro h; simp [merge2, h, mergeOpt]
  exact ⟨fun v h => by simp [merge2, h, mergeOpt], rfl⟩

/-- C2 counterexample: an interface-change directive with `lag=1` and
`subif=100` simultaneously set is accepted by the converter —
`__post_init__` checks only the pairs lag/svi and svi/subif, so the
claimed mutual exclusion of the pair lag/subif does not hold. -/
theorem interface_changes_lag_subif_accepted :
    mkInterfaceChanges "10.0.0.1/24".toList (some 1) none none (some 100) none
      = .ok { addr := "10.0.0.1/24".toList, lag := some 1, subif := some 100 } := by
  rfl

/-- C2 (amended): constructing an interface-change directive in which
`lag` and `svi` are both set, or `svi` and `subif` are both set, fails
with a validation error at construction time; when `svi` is unset the
construction succeeds, in particular `lag` together with `subif` is
accepted. -/
theorem interface_changes_validation (addr : Str)
    (lag lagMin svi subif : Option Int) (vrf : Option Str) :
    (lag.isSome = true → svi.isSome = true →
      mkInterfaceChanges addr lag lagMin svi subif vrf
        = .error "Cannot use LAG and SVI together")
    ∧ (svi.isSome = true → subif.isSome = true →
      ∃ e, mkInterfaceChanges addr lag lagMin svi subif vrf = .error e)
    ∧ (svi = none →
      mkInterfaceChanges addr lag lagMin svi subif vrf
        = .ok { addr := addr, lag := lag, lag_links_min := lagMin,
                svi := svi, subif := subif, vrf := vrf }) := by
  refine ⟨fun h1 h2 => ?_, fun h1 h2 => ?_, fun h => ?_⟩
  · simp [mkInterfaceChanges, h1, h2]
  · by_cases hl : lag.isSome <;> simp [mkInterfaceChanges, h1, h2, hl]
  · subst h; simp [mkInterfaceChanges]

/-- C9: the global pass folds the matching rules' outputs in match
order with the Merge Operator, seeded by the default
`GlobalOptionsDTO`, and a later match wins a tie on a scalar field: in
particular, after a matching rule setting `asnum=65001`, a
later-registered matching rule setting `asnum=65002` leaves
`asnum=65002` in the merged global options; in general, whenever the
registry's match list ends with a rule whose output sets `asnum`, that
value is the merged result's `asnum`. -/
theorem globals_later_match_wins (rs : List GlobalRule) (device : PeerDevice) :
    (executeGlobals
        ⟨fun _ => rs ++ [⟨fun _ => { asnum := some 65001 }⟩,
                         ⟨fun _ => { asnum := some 65002 }⟩],
         fun _ _ => [], fun _ _ => []⟩ device).asnum = some 65002
    ∧ (∀ (reg : Registry) (r : GlobalRule) (v : Nat),
        reg.lookupGlobal device.fqdn = rs ++ [r] →
        (r.handler device).asnum = some v →
        (executeGlobals reg device).asnum = some v) := by
  constructor
  · simp [executeGlobals, List.foldl_append, mergeG_asnum, mergeOpt]
  · intro reg r v hlook hv
    simp [executeGlobals, hlook, List.foldl_append, mergeG_asnum, hv, mergeOpt]

/-! ## Lemmas about the hostname dot hack -/

theorem dropWhile_eq_self_of (p : Char → Bool) (l : Str)
    (h : ∀ c ∈ l, p c = false) : l.dropWhile p = l := by
  cases l with
  | nil => rfl
  | cons a l => simp [List.dropWhile_cons, h a (List.mem_cons_self a l)]

theorem stripChars_eq_self (s : Str) (h : ∀ c ∈ s, c.isWhitespace = false) :
    stripChars s = s := by
  unfold stripChars
  rw [dropWhile_eq_self_of _ _ h]
  rw [dropWhile_eq_self_of _ _ (fun c hc => h c (List.mem_reverse.mp hc))]
  exact List.reverse_reverse s

theorem addDot_of_dot_free (g : Str) (h : '.' ∉ g) : addDot g = g ++ ['.'] := by
  simp [addDot, h]

theorem map_eq_self_mem {f : α → α} {l : List α} (h : l.map f = l) :
    ∀ x ∈ l, f x = x := by
  induction l with
  | nil => intro x hx; cases hx
  | cons a l ih =>
    intro x hx
    rw [List.map_cons, List.cons_eq_cons] at h
    cases hx with
    | head => exact h.1
    | tail _ hx => exact ih h.2 x hx

/-- C3: in substring mode, when every glob token of the query is
dot-free (a bare hostname) and whitespace-free, every device
`_load_devices` returns matched some token *suffixed with a dot* as a
substring of its name — the match lands at a label boundary, so a
device whose fully-qualified name merely shares a prefix with a token
at a non-label boundary (such as `sw10.example.com` for the token
`sw1`) is never returned. -/
theorem load_devices_label_boundary
    (serverExact serverIc : List Str → List ApiDevice) (q : NetboxQuery)
    (hq : ∀ g ∈ q.query, '.' ∉ g ∧ ∀ c ∈ g, c.isWhitespace = false) :
    ∀ d ∈ (load_devices serverExact serverIc false q).devices,
      ∃ g ∈ q.query, substrB (g ++ ['.']) d.name = true := by
  intro d hd
  unfold load_devices at hd
  by_cases hemp : q.globs.isEmpty
  · simp [hemp] at hd
  · simp only [hemp, Bool.false_eq_true, if_false, if_neg] at hd
    rw [List.mem_filter] at hd
    obtain ⟨-, hmatch⟩ := hd
    unfold matchQuery at hmatch
    rw [List.any_eq_true] at hmatch
    obtain ⟨sub, hsub, hsubstr⟩ := hmatch
    simp only [hostname_dot_hack, NetboxQuery.globs, List.mem_map] at hsub
    obtain ⟨g, hg, rfl⟩ := hsub
    refine ⟨g, hg, ?_⟩
    obtain ⟨hdot, hws⟩ := hq g hg
    rw [addDot_of_dot_free g hdot] at hsubstr
    rw [stripChars_eq_self _ ?_] at hsubstr
    · exact hsubstr
    · intro c hc
      rcases List.mem_append.mp hc with h1 | h1
      · exact hws c h1
      · rw [List.mem_singleton] at h1; subst h1; rfl

/-- C3 witness: with the fleet holding `sw10.example.com`, the
substring-mode query `["sw1"]` returns no devices (its name fails the
label-boundary substring check `"sw1." in "sw10.example.com"`); with
the fleet holding `sw1.example.com` the same query matches it at the
label boundary. -/
theorem load_devices_label_boundary_witness :
    (load_devices (fun _ => []) (fun _ => [⟨5, "sw10.example.com".toList⟩])
      false ⟨["sw1".toList]⟩).devices = []
    ∧ ∃ g ∈ [("sw1".toList : Str)],
        substrB (g ++ ['.']) "sw1.example.com".toList = true := by
  constructor
  · rfl
  · exact load_devices_label_boundary (fun _ => [])
      (fun _ => [⟨7, "sw1.example.com".toList⟩]) ⟨["sw1".toList]⟩
      (by decide) ⟨7, "sw1.example.com".toList⟩ (by decide)

/-- C10 (implicit frame effect): in substring mode, `_load_devices` on
a non-empty query mutates the caller's query object in place — after
the call the query's underlying glob list is its original value with
`addDot` applied to every token (every dot-free token gains a trailing
dot), and whenever at least one token was dot-free the query value the
caller holds differs from the one passed in. -/
theorem load_devices_mutates_query
    (serverExact serverIc : List Str → List ApiDevice) (q : NetboxQuery)
    (hne : q.query ≠ []) :
    (load_devices serverExact serverIc false q).queryAfter.query
        = q.query.map addDot
    ∧ ((∃ g ∈ q.query, '.' ∉ g) →
        (load_devices serverExact serverIc false q).queryAfter ≠ q) := by
  have hemp : q.globs.isEmpty = false := by
    simpa [NetboxQuery.globs, List.isEmpty_iff] using hne
  constructor
  · simp [load_devices, hemp, hostname_dot_hack]
  · rintro ⟨g, hg, hdot⟩ heq
    have hmap : q.query.map addDot = q.query := by
      have := congrArg NetboxQuery.query heq
      simpa [load_devices, hemp, hne, hostname_dot_hack, NetboxQuery.globs] using this
    have hfix := map_eq_self_mem hmap g hg
    rw [addDot_of_dot_free g hdot] at hfix
    have := congrArg List.length hfix
    simp at this

/-- C10 witness: the query `["host", "a.b"]` comes back from the call
as `["host.", "a.b"]` — the caller-held value changed. -/
theorem load_devices_mutates_query_witness :
    (load_devices (fun _ => []) (fun _ => []) false
        ⟨["host".toList, "a.b".toList]⟩).queryAfter.query
      = ["host.".toList, "a.b".toList]
    ∧ (load_devices (fun _ => []) (fun _ => []) false
        ⟨["host".toList, "a.b".toList]⟩).queryAfter
      ≠ (⟨["host".toList, "a.b".toList]⟩ : NetboxQuery) := by
  constructor
  · exact ((load_devices_mutates_query (fun _ => []) (fun _ => [])
      ⟨["host".toList, "a.b".toList]⟩ (by decide)).1).trans (by decide)
  · exact (load_devices_mutates_query (fun _ => []) (fun _ => [])
      ⟨["host".toList, "a.b".toList]⟩ (by decide)).2
      ⟨"host".toList, by decide, by decide⟩

/-! ## Lemmas about dictionaries and the graph builder -/

theorem mem_dictSet [BEq κ] {m : List (κ × β)} {k : κ} {v : β} {p : κ × β}
    (h : p ∈ dictSet m k v) : p = (k, v) ∨ p ∈ m := by
  induction m with
  | nil => simpa [dictSet] using h
  | cons q rest ih =>
    unfold dictSet at h
    by_cases hk : q.1 == k
    · rw [if_pos hk] at h
      rcases List.mem_cons.mp h with h1 | h1
      · exact Or.inl h1
      · exact Or.inr (List.mem_cons_of_mem _ h1)
    · rw [if_neg hk] at h
      rcases List.mem_cons.mp h with h1 | h1
      · exact Or.inr (h1 ▸ List.mem_cons_self q rest)
      · rcases ih h1 with h2 | h2
        · exact Or.inl h2
        · exact Or.inr (List.mem_cons_of_mem _ h2)

theorem mem_foldl_dictSet [BEq κ] (key : α → κ) (val : α → β) :
    ∀ (xs : List α) (m0 : List (κ × β)) (p : κ × β),
      p ∈ xs.foldl (fun m x => dictSet m (key x) (val x)) m0 →
      p ∈ m0 ∨ ∃ x ∈ xs, p.2 = val x := by
  intro xs
  induction xs with
  | nil => intro m0 p h; exact Or.inl (by simpa using h)
  | cons x xs ih =>
    intro m0 p h
    rw [List.foldl_cons] at h
    rcases ih _ p h with h1 | h1
    · rcases mem_dictSet h1 with h2 | h2
      · exact Or.inr ⟨x, List.mem_cons_self x xs, by rw [h2]⟩
      · exact Or.inl h2
    · obtain ⟨y, hy, hv⟩ := h1
      exact Or.inr ⟨y, List.mem_cons_of_mem _ hy, hv⟩

theorem dictGet_mem [BEq κ] {m : List (κ × β)} {k : κ} {v : β}
    (h : dictGet m k = some v) : ∃ p ∈ m, p.2 = v := by
  unfold dictGet at h
  cases hf : m.find? (fun p => p.1 == k) with
  | none => rw [hf] at h; cases h
  | some p =>
    rw [hf] at h
    exact ⟨p, List.mem_of_find?_eq_some hf, by simpa using h⟩

theorem nbrList_appendNbr (nb d : NDev) :
    (NDev.appendNbr nb d).nbrList = d.nbrList ++ [nb] := by
  cases d; rfl

theorem nbrList_appendIface (i : IfaceM) (d : NDev) :
    (NDev.appendIface i d).nbrList = d.nbrList := by
  cases d; rfl

theorem endpointStep_inv (nbrs : List (Nat × NDev)) (P : NDev → Prop)
    (hP : ∀ k v, dictGet nbrs k = some v → P v) (devId : Nat)
    (st : BuildSt) (e : EndpointM) (h : BuildInv P st) :
    BuildInv P (endpointStep nbrs devId st e) := by
  unfold endpointStep
  split
  · exact h
  · rename_i nb hg
    split
    · exact h
    · rename_i hseen
      intro p hp
      obtain ⟨q, hq, hpe⟩ := List.mem_map.mp hp
      obtain ⟨hnodup, hmem⟩ := h q hq
      by_cases hk : q.1 == devId
      · rw [if_pos hk] at hpe
        have hq1 : q.1 = devId := by simpa using hk
        subst hpe
        constructor
        · rw [nbrList_appendNbr, List.map_append]
          refine List.Nodup.append hnodup (List.nodup_singleton _) ?_
          intro a ha hb
          simp only [List.map_cons, List.map_nil, List.mem_singleton] at hb
          subst hb
          obtain ⟨x, hx, hxid⟩ := List.mem_map.mp ha
          exact hseen (hq1 ▸ hxid ▸ (hmem x hx).1)
        · intro x hx
          rw [nbrList_appendNbr] at hx
          rcases List.mem_append.mp hx with hx1 | hx1
          · refine ⟨?_, (hmem x hx1).2⟩
            have hsx := (hmem x hx1).1
            simp only [hq1, if_pos, List.mem_cons]
            exact Or.inr (hq1 ▸ hsx)
          · rw [List.mem_singleton] at hx1
            subst hx1
            refine ⟨?_, hP _ _ hg⟩
            simp [hq1]
      · rw [if_neg hk] at hpe
        subst hpe
        have hq1 : ¬ q.1 = devId := by simpa using hk
        refine ⟨hnodup, fun x hx => ⟨?_, (hmem x hx).2⟩⟩
        simp only [if_neg hq1]
        exact (hmem x hx).1

theorem foldl_endpointStep_inv (nbrs : List (Nat × NDev)) (P : NDev → Prop)
    (hP : ∀ k v, dictGet nbrs k = some v → P v) (devId : Nat) :
    ∀ (es : List EndpointM) (st : BuildSt), BuildInv P st →
      BuildInv P (es.foldl (endpointStep nbrs devId) st) := by
  intro es
  induction es with
  | nil => intro st h; exact h
  | cons e es ih =>
    intro st h
    rw [List.foldl_cons]
    exact ih _ (endpointStep_inv nbrs P hP devId st e h)

theorem interfaceStep_inv (nbrs : List (Nat × NDev)) (P : NDev → Prop)
    (hP : ∀ k v, dictGet nbrs k = some v → P v)
    (st : BuildSt) (i : IfaceM) (h : BuildInv P st) :
    BuildInv P (interfaceStep nbrs st i) := by
  unfold interfaceStep
  refine foldl_endpointStep_inv nbrs P hP _ _ _ ?_
  intro p hp
  obtain ⟨q, hq, hpe⟩ := List.mem_map.mp hp
  obtain ⟨hnodup, hmem⟩ := h q hq
  by_cases hk : q.1 == i.device.id
  · rw [if_pos hk] at hpe
    subst hpe
    rw [nbrList_appendIface]
    exact ⟨hnodup, hmem⟩
  · rw [if_neg hk] at hpe
    subst hpe
    exact ⟨hnodup, hmem⟩

theorem foldl_interfaceStep_inv (nbrs : List (Nat × NDev)) (P : NDev → Prop)
    (hP : ∀ k v, dictGet nbrs k = some v → P v) :
    ∀ (ifs : List IfaceM) (st : BuildSt), BuildInv P st →
      BuildInv P (ifs.foldl (interfaceStep nbrs) st) := by
  intro ifs
  induction ifs with
  | nil => intro st h; exact h
  | cons i ifs ih =>
    intro st h
    rw [List.foldl_cons]
    exact ih _ (interfaceStep_inv nbrs P hP st i h)

theorem load_neighbours_not_recursive (tag : Nat)
    (loadIfById : List Nat → List IfaceM)
    (loadDevById : List Nat → List ApiDevice) (interfaces : List IfaceM) :
    ∀ x ∈ load_neighbours tag loadIfById loadDevById interfaces,
      x.neighbours = none := by
  intro x hx
  unfold load_neighbours at hx
  obtain ⟨nd, -, rfl⟩ := List.mem_map.mp hx
  rfl

theorem make_devices_inv (tag : Nat)
    (serverExact serverIc : List Str → List ApiDevice)
    (exactHostFilter : Bool) (loadIfs : List Nat → List IfaceM)
    (loadIfById : List Nat → List IfaceM)
    (loadDevById : List Nat → List ApiDevice) (q : NetboxQuery) :
    ∀ d ∈ make_devices tag serverExact serverIc exactHostFilter
        loadIfs loadIfById loadDevById q,
      (d.nbrList.map NDev.id).Nodup ∧ ∀ x ∈ d.nbrList, x.neighbours = none := by
  intro d hd
  simp only [make_devices] at hd
  split at hd
  · cases hd
  · rw [List.mem_map] at hd
    obtain ⟨p, hp, hpd⟩ := hd
    have hfold := foldl_interfaceStep_inv _ (fun x => x.neighbours = none) ?_ _ _ ?_ p hp
    · exact hpd ▸ ⟨hfold.1, fun x hx => (hfold.2 x hx).2⟩
    · intro k v hkv
      obtain ⟨pr, hpr, hprv⟩ := dictGet_mem hkv
      rcases mem_foldl_dictSet NDev.id (fun x => x) _ [] pr hpr with h1 | h1
      · cases h1
      · obtain ⟨x, hx, hpx⟩ := h1
        rw [hprv] at hpx
        exact hpx ▸ load_neighbours_not_recursive _ _ _ _ x hx
    · intro pr hpr
      rcases mem_foldl_dictSet ApiDevice.id (extendTop tag) _ [] pr hpr with h1 | h1
      · cases h1
      · obtain ⟨x, -, hpx⟩ := h1
        rw [hpx]
        exact ⟨by simp [extendTop, NDev.nbrList, NDev.neighbours],
               by simp [extendTop, NDev.nbrList, NDev.neighbours]⟩

/-- C1: every device produced by `make_devices` (`buildDevices`) has a
neighbour list free of duplicate neighbour device ids, even when the
device is connected to the same neighbour over several parallel
physical links — the `neighbours_seen` set de-duplicates entries per
device. -/
theorem make_devices_neighbours_nodup (tag : Nat)
    (serverExact serverIc : List Str → List ApiDevice)
    (exactHostFilter : Bool) (loadIfs : List Nat → List IfaceM)
    (loadIfById : List Nat → List IfaceM)
    (loadDevById : List Nat → List ApiDevice) (q : NetboxQuery) :
    ∀ d ∈ make_devices tag serverExact serverIc exactHostFilter
        loadIfs loadIfById loadDevById q,
      (d.nbrList.map NDev.id).Nodup :=
  fun d hd => (make_devices_inv tag serverExact serverIc exactHostFilter
    loadIfs loadIfById loadDevById q d hd).1

/-- C1 witness: in the two-parallel-links scenario, the built
`r1.example.com` carries the duplicate-free neighbour id list
`[2]` although two links point at device 2. -/
theorem make_devices_neighbours_nodup_witness :
    (scR1.nbrList.map NDev.id).Nodup := by
  have hmem : scR1 ∈ scBuilt := by
    have h : scBuilt = [scR1] := by rfl
    rw [h]
    exact List.mem_singleton.mpr rfl
  exact make_devices_neighbours_nodup 0 scExact scIc false scIfs scIfById
    scDevById ⟨["r1".toList]⟩ scR1 hmem

/-- C7: every neighbour device attached to a built device's neighbour
list was loaded one hop deep only: its own neighbour field is `None`
(`_load_neighbours` passes `neighbours=None`, "do not load
recursively"), so it carries no neighbour entries at all — its set of
attached neighbour devices is empty. -/
theorem make_devices_neighbours_one_hop (tag : Nat)
    (serverExact serverIc : List Str → List ApiDevice)
    (exactHostFilter : Bool) (loadIfs : List Nat → List IfaceM)
    (loadIfById : List Nat → List IfaceM)
    (loadDevById : List Nat → List ApiDevice) (q : NetboxQuery) :
    ∀ d ∈ make_devices tag serverExact serverIc exactHostFilter
        loadIfs loadIfById loadDevById q,
      ∀ nb ∈ d.nbrList, nb.neighbours = none ∧ nb.nbrList = [] := by
  intro d hd nb hnb
  have h := (make_devices_inv tag serverExact serverIc exactHostFilter
    loadIfs loadIfById loadDevById q d hd).2 nb hnb
  exact ⟨h, by rw [NDev.nbrList, h]; rfl⟩

/-- C7 witness: in the scenario, the attached neighbour
`r2.example.com` has `neighbours = None` and hence no neighbour
entries. -/
theorem make_devices_neighbours_one_hop_witness :
    scR2.neighbours = none ∧ scR2.nbrList = [] := by
  have hmem : scR1 ∈ scBuilt := by
    have h : scBuilt = [scR1] := by rfl
    rw [h]
    exact List.mem_singleton.mpr rfl
  have hnb : scR2 ∈ scR1.nbrList := List.mem_singleton.mpr rfl
  exact make_devices_neighbours_one_hop 0 scExact scIc false scIfs scIfById
    scDevById ⟨["r1".toList]⟩ scR1 hmem scR2 hnb

/-- C8: in the two-parallel-links scenario, `buildDevices(["r1"])`
returns exactly one device (`r1.example.com`) with the single
neighbour `r2.example.com`, and `search_connections` on that pair
returns exactly the two name-matched pairs `(eth0, eth2)` and
`(eth1, eth3)`; in general, for two devices of the same storage, every
local interface endpoint pointing at the neighbour that has a
name-matching neighbour interface yields a returned pair with that
local interface and that interface name. -/
theorem search_connections_pairs :
    (scBuilt.map fun d => d.nbrList.map fun n =>
        (search_connections 0 d n).map fun l =>
          l.map fun pr => (pr.1.name, pr.2.name))
      = [[Except.ok [("eth0".toList, "eth2".toList),
                     ("eth1".toList, "eth3".toList)]]]
    ∧ (∀ (tag : Nat) (device neighbor : NDev),
        device.storage = tag → neighbor.storage = tag →
        ∀ localPort ∈ device.interfaces, ∀ e ∈ localPort.endpoints,
          e.device.id = neighbor.id →
          (∃ remote ∈ neighbor.interfaces, remote.name = e.name) →
          ∃ pairs, search_connections tag device neighbor = .ok pairs ∧
            ∃ r, (localPort, r) ∈ pairs ∧ r.name = e.name) := by
  constructor
  · rfl
  · rintro tag device neighbor h1 h2 localPort hl e he heid ⟨remote, hr, hrname⟩
    unfold search_connections
    rw [if_neg (by simp [h1]), if_neg (by simp [h2])]
    refine ⟨_, rfl, ?_⟩
    have hsome : (neighbor.interfaces.find? (fun r => r.name == e.name)).isSome := by
      rw [List.find?_isSome]
      exact ⟨remote, hr, by simp [hrname]⟩
    obtain ⟨r0, hr0⟩ := Option.isSome_iff_exists.mp hsome
    have hr0name : r0.name = e.name := by
      have := List.find?_some hr0
      simpa using this
    refine ⟨r0, ?_, hr0name⟩
    rw [List.mem_flatMap]
    refine ⟨localPort, hl, ?_⟩
    rw [List.mem_filterMap]
    refine ⟨e, he, ?_⟩
    rw [if_pos heid, hr0]

/-! ## Lemmas about the mesh executor's indirect pass -/

theorem foldlM_indirect_error (storage : StorageModel) (device : PeerDevice) :
    ∀ (rules : List IndirectRule) (acc : List (Str × PeerDTO)),
      (∃ r ∈ rules, storage.resolve
          (if r.directOrder then r.nameRight else r.nameLeft) = []) →
      ∃ e, rules.foldlM (indirectStep storage device) acc = .error e := by
  intro rules
  induction rules with
  | nil =>
    rintro acc ⟨r, hr, -⟩
    cases hr
  | cons r rest ih =>
    rintro acc ⟨r1, hr1, hres⟩
    rw [List.foldlM_cons]
    cases hstep : indirectStep storage device acc r with
    | error e1 => exact ⟨e1, rfl⟩
    | ok acc1 =>
      have hr1rest : r1 ∈ rest := by
        rcases List.mem_cons.mp hr1 with h | h
        · rw [h] at hres
          simp [indirectStep, hres] at hstep
        · exact h
      obtain ⟨e, he⟩ := ih acc1 ⟨r1, hr1rest, hres⟩
      exact ⟨e, he⟩

/-- C5: in the indirect pass, an indirect rule whose far-end target
device name resolves to an empty result from the storage collaborator
makes the execution fail with an error (`make_devices(...)[0]` raises
on an empty list): the rule is not silently skipped and no peer list
is produced. -/
theorem indirect_unresolved_fatal (reg : Registry) (storage : StorageModel)
    (device : PeerDevice) (allFqdns : List Str)
    (h : ∃ r ∈ reg.lookupIndirect device.fqdn allFqdns,
        storage.resolve (if r.directOrder then r.nameRight else r.nameLeft) = []) :
    ∃ e, executeIndirect reg storage device allFqdns = .error e := by
  obtain ⟨e, he⟩ := foldlM_indirect_error storage device _ [] h
  exact ⟨e, by unfold executeIndirect; rw [he]; rfl⟩

/-- C5 witness: the indirect rule targeting `y`, which the storage
resolves to no device, makes the indirect pass fail. -/
theorem indirect_unresolved_fatal_witness :
    ∃ e, executeIndirect cRegY cStor ⟨"d".toList, []⟩ cStor.allFqdns
      = .error e := by
  refine indirect_unresolved_fatal cRegY cStor ⟨"d".toList, []⟩ cStor.allFqdns
    ⟨cIndirectRuleY, ?_, ?_⟩
  · show cIndirectRuleY ∈ [cIndirectRuleY]
    exact List.mem_singleton.mpr rfl
  · rfl

/-- C6: `execute_for` keeps direct-pass and indirect-pass peers as
separate entries: whenever both passes succeed, the resulting peer
list is exactly the direct pass's peers followed by the indirect
pass's peers, each converted by `_to_bgp_peer` — the two passes
aggregate in separate fqdn-keyed collections that are concatenated,
never merged with each other, even when a direct and an indirect peer
share an fqdn. -/
theorem direct_indirect_distinct (reg : Registry) (storage : StorageModel)
    (device : ExecDevice) (directs indirects : List PeerDTO)
    (h1 : executeDirect reg device = .ok directs)
    (h2 : executeIndirect reg storage device.self storage.allFqdns = .ok indirects) :
    executeFor reg storage device
      = .ok ⟨executeGlobals reg device.self,
             directs.map toBgpPeer ++ indirects.map toBgpPeer⟩ := by
  simp only [executeFor]
  rw [h1, h2]

/-- C6 witness: a direct rule and an indirect rule both target fqdn
`x`; the final peer list still holds two distinct entries, the direct
one (address `10.0.0.1`) first and the indirect one (address
`10.0.0.2`) after it. -/
theorem direct_indirect_distinct_witness :
    executeFor cReg cStor cDevD
      = .ok ⟨executeGlobals cReg cDevD.self,
             [toBgpPeer { addr := some "10.0.0.1".toList },
              toBgpPeer { addr := some "10.0.0.2".toList }]⟩ :=
  direct_indirect_distinct cReg cStor cDevD
    [{ addr := some "10.0.0.1".toList }] [{ addr := some "10.0.0.2".toList }]
    rfl rfl

end Annet
